import Mathlib

/-!
# Shallow embedding of the dim-sum review service (`src/app.py`)

The service is a Flask + SQLAlchemy application over a single SQLite table
`DimSum`.  We embed it as pure Lean functions over an explicit store
(a list of rows).  Modelling decisions, each tied to the runtime's
documented behaviour:

* JSON request bodies are dictionaries; `data.get(k)` distinguishes an
  absent key from a key present with JSON `null`.  We model each
  recognized key as `Option (Option τ)`: `none` = key absent,
  `some none` = key present with value `null`, `some (some v)` = value.
* Python numbers: `rating` is an integer column (`Int`), `price` a float
  column modelled by `Rat` (the claims never exercise float-specific
  rounding artifacts).
* Uncaught Python exceptions (`KeyError` from `data['k']`, `ValueError`
  from `datetime.fromisoformat`, `IntegrityError` from committing a NULL
  into a `nullable=False` column) are converted by Flask into a generic
  HTTP 500 response; `get_or_404` aborts with HTTP 404.
* SQLite assigns a new rowid as one more than the largest rowid currently
  in the table (the column is `INTEGER PRIMARY KEY` without
  `AUTOINCREMENT`), so ids of deleted rows can be reused.
* `ilike` compiles to a case-insensitive SQL `LIKE` over the pattern
  `'%' + search + '%'`; `%` and `_` inside the (unescaped) search string
  act as LIKE wildcards.  Case folding is ASCII, as in SQLite.
* `ORDER BY created_at DESC` is modelled by `List.insertionSort` with the
  relation "has later-or-equal `created_at`"; the order among ties is
  unspecified by SQL and the spec claims nothing about it.
* `datetime.utcnow` (the `created_at` default) is an input `now : Nat`
  (a timestamp); `datetime.fromisoformat(...).date()` is an executable
  parser below covering date strings `YYYY-MM-DD`, optionally followed by
  a `T` or space separator and a time `HH:MM:SS` (the classic grammar;
  fractional seconds and offsets are outside every claim's inputs).
-/

/-- A calendar date, the result of `datetime.date`. -/
structure Ymd where
  year : Nat
  month : Nat
  day : Nat
deriving DecidableEq, Repr

/-- Gregorian leap-year test, as in Python's `datetime`. -/
def isLeap (y : Nat) : Bool := y % 4 == 0 && (y % 100 != 0 || y % 400 == 0)

/-- Length of a month, as validated by `datetime.date`. -/
def daysInMonth (y m : Nat) : Nat :=
  if m == 2 then (if isLeap y then 29 else 28)
  else if m == 4 || m == 6 || m == 9 || m == 11 then 30
  else 31

/-- Numeric value of a decimal digit character. -/
def digitVal (c : Char) : Nat := c.toNat - '0'.toNat

/-- Build a validated `date` from the eight digit characters of
`YYYY-MM-DD`, with the range checks `datetime.date` performs. -/
def mkDate (y1 y2 y3 y4 m1 m2 d1 d2 : Char) : Option Ymd :=
  if y1.isDigit && y2.isDigit && y3.isDigit && y4.isDigit &&
      m1.isDigit && m2.isDigit && d1.isDigit && d2.isDigit then
    let y := ((digitVal y1 * 10 + digitVal y2) * 10 + digitVal y3) * 10 + digitVal y4
    let m := digitVal m1 * 10 + digitVal m2
    let d := digitVal d1 * 10 + digitVal d2
    if 1 ≤ y && 1 ≤ m && m ≤ 12 && 1 ≤ d && d ≤ daysInMonth y m then
      some ⟨y, m, d⟩
    else none
  else none

/-- Build a validated time of day from the characters of `HH:MM:SS`. -/
def mkTime : List Char → Option (Nat × Nat × Nat)
  | [h1, h2, ':', n1, n2, ':', s1, s2] =>
    if h1.isDigit && h2.isDigit && n1.isDigit && n2.isDigit &&
        s1.isDigit && s2.isDigit then
      let h := digitVal h1 * 10 + digitVal h2
      let n := digitVal n1 * 10 + digitVal n2
      let s := digitVal s1 * 10 + digitVal s2
      if h ≤ 23 && n ≤ 59 && s ≤ 59 then some (h, n, s) else none
    else none
  | _ => none

/-- `datetime.fromisoformat`: a datetime is a date `YYYY-MM-DD`,
optionally followed by a one-character separator and a time. -/
def fromisoformat (s : String) : Option (Ymd × (Nat × Nat × Nat)) :=
  match s.data with
  | [y1, y2, y3, y4, '-', m1, m2, '-', d1, d2] =>
    (mkDate y1 y2 y3 y4 m1 m2 d1 d2).map (fun ymd => (ymd, (0, 0, 0)))
  | y1 :: y2 :: y3 :: y4 :: '-' :: m1 :: m2 :: '-' :: d1 :: d2 :: sep :: rest =>
    if sep == 'T' || sep == ' ' then
      match mkDate y1 y2 y3 y4 m1 m2 d1 d2, mkTime rest with
      | some ymd, some t => some (ymd, t)
      | _, _ => none
    else none
  | _ => none

/-- One row of the `DimSum` table.  `restaurant_name` and `dish_name` are
`nullable=False` columns, so persisted rows always carry a string there;
every other user field is a nullable column. -/
structure DimSum where
  id : Nat
  restaurant_name : String
  dish_name : String
  dish_type : Option String
  rating : Option Int
  price : Option Rat
  notes : Option String
  visit_date : Option Ymd
  location : Option String
  would_order_again : Option Bool
  created_at : Nat
deriving DecidableEq, Repr

/-- The persisted table. -/
abbrev Store := List DimSum

/-- A JSON request body, restricted to the keys the handlers read
(unrecognized keys are never consulted by the code).  Outer `none`:
key absent; `some none`: key present with JSON `null`. -/
structure ReqData where
  restaurant_name : Option (Option String) := none
  dish_name : Option (Option String) := none
  dish_type : Option (Option String) := none
  rating : Option (Option Int) := none
  price : Option (Option Rat) := none
  notes : Option (Option String) := none
  visit_date : Option (Option String) := none
  location : Option (Option String) := none
  would_order_again : Option (Option Bool) := none
deriving DecidableEq, Repr

/-- Python `data.get(key, default)`: the default applies only when the
key is absent, not when it is present with value `null`. -/
def dictGet (v : Option (Option α)) (dflt : Option α) : Option α :=
  match v with
  | none => dflt
  | some x => x

/-- The ways a handler run can terminate abnormally.  `notFound` is the
explicit `get_or_404` abort; the other three are uncaught Python
exceptions. -/
inductive ApiError
  | notFound
  | keyError
  | valueError
  | integrityError
deriving DecidableEq, Repr

/-- The HTTP status Flask produces for each abnormal outcome: `abort(404)`
stays a 404; an uncaught `KeyError` / `ValueError` / `IntegrityError` is
turned into a generic 500 Internal Server Error (none of them is an
`HTTPException` and the app registers no error handler). -/
def statusOf : ApiError → Nat
  | .notFound => 404
  | .keyError => 500
  | .valueError => 500
  | .integrityError => 500

/-- SQLite rowid assignment for an `INTEGER PRIMARY KEY` column without
`AUTOINCREMENT`: the largest rowid currently in the table. -/
def maxId (st : Store) : Nat := st.foldr (fun r m => max r.id m) 0

/-- The id given to a newly inserted row: one more than the current
maximum.  Ids of since-deleted rows can therefore be reassigned. -/
def nextId (st : Store) : Nat := maxId st + 1

/-- Lines 76–78 and 112–113 of `app.py`:
`if data.get('visit_date'): item.visit_date = datetime.fromisoformat(data['visit_date']).date()`.
The guard is Python truthiness, so an absent key, a `null` and the empty
string all leave `old` in place; a non-empty string is parsed (an
unparsable one raises `ValueError`) and only the date part is kept. -/
def readVisitDate (v : Option (Option String)) (old : Option Ymd) :
    Except ApiError (Option Ymd) :=
  match v with
  | some (some s) =>
    if s = "" then .ok old
    else
      match fromisoformat s with
      | some dt => .ok (some dt.fst)
      | none => .error .valueError
  | _ => .ok old

/-- The `POST /api/dimsum` handler body (`create_dimsum` in `app.py`),
up to the exception boundary.  Follows the source's evaluation order:
the `visit_date` parse runs before the `data['restaurant_name']` and
`data['dish_name']` subscripts, and the NOT NULL constraint fires at
`db.session.commit()`. -/
def createE (d : ReqData) (now : Nat) (st : Store) :
    Except ApiError (DimSum × Store) :=
  match readVisitDate d.visit_date none with
  | .error e => .error e
  | .ok vd =>
    match d.restaurant_name with
    | none => .error .keyError
    | some rn? =>
      match d.dish_name with
      | none => .error .keyError
      | some dn? =>
        match rn?, dn? with
        | some rn, some dn =>
          let r : DimSum :=
            { id := nextId st
              restaurant_name := rn
              dish_name := dn
              dish_type := (dictGet d.dish_type none)
              rating := (dictGet d.rating (some 0))
              price := (dictGet d.price none)
              notes := (dictGet d.notes none)
              visit_date := vd
              location := (dictGet d.location none)
              would_order_again := (dictGet d.would_order_again (some true))
              created_at := now }
          .ok (r, st ++ [r])
        | _, _ => .error .integrityError

/-- The HTTP-level outcome of a request: status code, optional serialized
row, and the table after the request. -/
structure HttpResult where
  status : Nat
  body : Option DimSum
  store : Store
deriving DecidableEq, Repr

/-- `POST /api/dimsum` at the HTTP level: 201 with the new row on
success, otherwise the Flask status for the raised error and an
unchanged table. -/
def create_dimsum (d : ReqData) (now : Nat) (st : Store) : HttpResult :=
  match createE d now st with
  | .ok (r, st2) => ⟨201, some r, st2⟩
  | .error e => ⟨statusOf e, none, st⟩

/-- The `PUT /api/dimsum/<id>` handler body (`update_dimsum` in
`app.py`), up to the exception boundary.  Each field is
`data.get(k, item.k)`; `visit_date` is guarded by truthiness; the
NOT NULL columns are checked at commit. -/
def updateE (i : Nat) (d : ReqData) (st : Store) :
    Except ApiError (DimSum × Store) :=
  match st.find? (fun r => r.id == i) with
  | none => .error .notFound
  | some item =>
    match readVisitDate d.visit_date item.visit_date with
    | .error e => .error e
    | .ok vd =>
      match dictGet d.restaurant_name (some item.restaurant_name),
          dictGet d.dish_name (some item.dish_name) with
      | some rn, some dn =>
        let r : DimSum :=
          { id := item.id
            restaurant_name := rn
            dish_name := dn
            dish_type := (dictGet d.dish_type item.dish_type)
            rating := (dictGet d.rating item.rating)
            price := (dictGet d.price item.price)
            notes := (dictGet d.notes item.notes)
            visit_date := vd
            location := (dictGet d.location item.location)
            would_order_again := (dictGet d.would_order_again item.would_order_again)
            created_at := item.created_at }
        .ok (r, st.map (fun x => if x.id == i then r else x))
      | _, _ => .error .integrityError

/-- `PUT /api/dimsum/<id>` at the HTTP level. -/
def update_dimsum (i : Nat) (d : ReqData) (st : Store) : HttpResult :=
  match updateE i d st with
  | .ok (r, st2) => ⟨200, some r, st2⟩
  | .error e => ⟨statusOf e, none, st⟩

/-- `DELETE /api/dimsum/<id>`: 404 if absent, else the row is removed
and 204 returned. -/
def delete_dimsum (i : Nat) (st : Store) : HttpResult :=
  match st.find? (fun r => r.id == i) with
  | none => ⟨404, none, st⟩
  | some _ => ⟨204, none, st.filter (fun r => !(r.id == i))⟩

/-- `GET /api/dimsum/<id>`: the row, or 404. -/
def get_dimsum_item (i : Nat) (st : Store) : HttpResult :=
  match st.find? (fun r => r.id == i) with
  | none => ⟨404, none, st⟩
  | some item => ⟨200, some item, st⟩

/-- SQL `LIKE` pattern matching as SQLite evaluates `x ILIKE pattern`:
`%` matches any (possibly empty) sequence — i.e. the rest of the pattern
matches some suffix of the text — `_` matches any single character, and
any other pattern character matches case-insensitively (ASCII folding,
as SQLite's). -/
def likeMatch : List Char → List Char → Bool
  | [], t => t.isEmpty
  | c :: p2, t =>
    if c = '%' then
      t.tails.any (fun t2 => likeMatch p2 t2)
    else if c = '_' then
      match t with
      | [] => false
      | _ :: t2 => likeMatch p2 t2
    else
      match t with
      | [] => false
      | a :: t2 => (c.toLower == a.toLower) && likeMatch p2 t2

/-- The pattern `f'%{search}%'` built (unescaped) by `get_dimsum`. -/
def ilikePat (search : String) : List Char := ('%' :: search.data) ++ ['%']

/-- The filter of lines 55–59 of `app.py`: any of the three columns
matches the pattern; a SQL `NULL dish_type ILIKE p` is not a match. -/
def matchesSearch (search : String) (r : DimSum) : Bool :=
  likeMatch (ilikePat search) r.restaurant_name.data ||
  likeMatch (ilikePat search) r.dish_name.data ||
  (match r.dish_type with
   | some t => likeMatch (ilikePat search) t.data
   | none => false)

/-- `ORDER BY created_at DESC`: `a` may come before `b` when `a` was
created at the same time or later. -/
def newestFirst (a b : DimSum) : Prop := b.created_at ≤ a.created_at

instance : DecidableRel newestFirst := fun a b => Nat.decLe b.created_at a.created_at

instance : IsTotal DimSum newestFirst :=
  ⟨fun a b => Nat.le_total b.created_at a.created_at⟩

instance : IsTrans DimSum newestFirst :=
  ⟨fun _ _ _ h1 h2 => Nat.le_trans h2 h1⟩

/-- A result sequence satisfying `ORDER BY created_at DESC`. -/
def sortByNewest (st : Store) : List DimSum := List.insertionSort newestFirst st

/-- `GET /api/dimsum` (`get_dimsum` in `app.py`): `search` defaults to
the empty string; a non-empty search filters the three columns with
`ILIKE '%search%'`; the result is ordered newest `created_at` first. -/
def get_dimsum (search : String) (st : Store) : List DimSum :=
  if search = "" then sortByNewest st
  else sortByNewest (st.filter (matchesSearch search))

/-- The JSON object returned by `GET /api/stats`. -/
structure StatsOut where
  total_items : Nat
  average_rating : Rat
  average_price : Rat
  winners : Nat
  losers : Nat
  restaurants : List (String × Nat)
  dish_types : List (String × Nat)
deriving DecidableEq, Repr

/-- Floor of a rational as an integer (`den` is always positive). -/
def floorQ (q : Rat) : Int := Int.fdiv q.num q.den

/-- Python `round(x, 2)` on the exact value: round to the nearest
multiple of 1/100, ties to the even multiple (Python rounds half to
even).  The claims stay away from float representation artifacts. -/
def round2 (q : Rat) : Rat :=
  let s := q * 100
  let fl := floorQ s
  let frac := s - (fl : Rat)
  let r : Int :=
    if frac < 1 / 2 then fl
    else if 1 / 2 < frac then fl + 1
    else if fl % 2 = 0 then fl else fl + 1
  (r : Rat) / 100

/-- SQL `AVG` over a column, with the handler's `or 0`: the average of
the non-NULL entries, and 0 when there are none. -/
def avgOr0 (l : List Rat) : Rat :=
  if l.length = 0 then 0 else l.sum / l.length

/-- SQL `GROUP BY key` with `COUNT(id)`: one group per distinct key
(NULL forms a group too), counting the rows carrying that key. -/
def keyCounts (keys : List (Option String)) : List (Option String × Nat) :=
  keys.eraseDups.map (fun k => (k, (keys.filter (fun x => x == k)).length))

/-- The comprehension `[... for r in rows if r[0]]` of lines 154–155:
groups whose key is NULL (or the falsy empty string) are dropped. -/
def breakdown (keys : List (Option String)) : List (String × Nat) :=
  (keyCounts keys).filterMap (fun p =>
    match p.fst with
    | some n => if n = "" then none else some (n, p.snd)
    | none => none)

/-- `GET /api/stats` (`get_stats` in `app.py`). -/
def get_stats (st : Store) : StatsOut :=
  { total_items := st.length
    average_rating := round2 (avgOr0 (st.filterMap (fun r => r.rating.map (fun n => (n : Rat)))))
    average_price := round2 (avgOr0 (st.filterMap (fun r => r.price)))
    winners := (st.filter (fun r => r.would_order_again == some true)).length
    losers := (st.filter (fun r => r.would_order_again == some false)).length
    restaurants := breakdown (st.map (fun r => some r.restaurant_name))
    dish_types := breakdown (st.map (fun r => r.dish_type)) }

/-- One request in a history of writes against the service. -/
inductive Op
  | create (d : ReqData) (now : Nat)
  | upd (i : Nat) (d : ReqData)
  | del (i : Nat)

/-- Apply one request to the table (a failed request leaves it as is). -/
def runOp (st : Store) : Op → Store
  | .create d now => (create_dimsum d now st).store
  | .upd i d => (update_dimsum i d st).store
  | .del i => (delete_dimsum i st).store

/-- Run a history of requests from the empty table. -/
def run (ops : List Op) : Store := ops.foldl runOp []

/-- `s` is a (character-exact) prefix of `t`.  Spec-side helper for the
"raw substring" notion of §4.1. -/
def pfx : List Char → List Char → Bool
  | [], _ => true
  | _ :: _, [] => false
  | c :: s2, a :: t2 => c == a && pfx s2 t2

/-- `t` contains `s` as a contiguous run of characters. -/
def hasSub (s : List Char) : List Char → Bool
  | [] => pfx s []
  | a :: t2 => pfx s (a :: t2) || hasSub s t2

/-- The spec's matching notion: the needle occurs in the haystack as a
raw, case-insensitive substring (ASCII case folding) — no tokenization,
no wildcards. -/
def containsCI (hay needle : String) : Bool :=
  hasSub (needle.data.map Char.toLower) (hay.data.map Char.toLower)

/-! ## Shared concrete fixtures -/

/-- A fully populated persisted row ("Golden Dragon" / "Har Gow"). -/
def sampleA : DimSum :=
  { id := 1, restaurant_name := "Golden Dragon", dish_name := "Har Gow",
    dish_type := some "Shrimp", rating := some 3, price := none, notes := none,
    visit_date := some ⟨2024, 1, 15⟩, location := none,
    would_order_again := some true, created_at := 10 }

/-- A second row at "Jade Palace", created later. -/
def sampleB : DimSum :=
  { sampleA with
    id := 2
    restaurant_name := "Jade Palace"
    rating := some 4
    visit_date := none
    created_at := 30 }

/-- A third row, again at "Golden Dragon", a loser. -/
def sampleC : DimSum :=
  { sampleA with
    id := 3
    rating := some 5
    would_order_again := some false
    visit_date := none
    created_at := 20 }

/-- A row whose `restaurant_name` "xzy" does not contain "x_y" as a raw
substring (but is matched by the LIKE pattern `%x_y%`). -/
def sampleX : DimSum :=
  { id := 7, restaurant_name := "xzy", dish_name := "d", dish_type := none,
    rating := none, price := none, notes := none, visit_date := none,
    location := none, would_order_again := some true, created_at := 5 }

/-- A create body with only `dish_name` (no `restaurant_name`). -/
def bodyHarGow : ReqData := { dish_name := some (some "Har Gow") }

/-- A create body whose `dish_name` is the empty string. -/
def bodyEmptyDish : ReqData :=
  { restaurant_name := some (some "Golden Dragon"), dish_name := some (some "") }

/-- A well-formed create body. -/
def bodyAB : ReqData :=
  { restaurant_name := some (some "A"), dish_name := some (some "B") }

/-- A body carrying an unparsable `visit_date`. -/
def bodyBadDate : ReqData :=
  { restaurant_name := some (some "A"), dish_name := some (some "B"),
    visit_date := some (some "not-a-date") }

/-- An update body with `visit_date` present but `null`. -/
def bodyNullDate : ReqData := { visit_date := some none }

/-- An update body with `visit_date` present but the empty string. -/
def bodyEmptyDate : ReqData := { visit_date := some (some "") }

/-! ## Helper lemmas -/

/-- The only exception the `visit_date` block can raise is `ValueError`. -/
theorem readVisitDate_error {v : Option (Option String)} {old : Option Ymd}
    {e : ApiError} (h : readVisitDate v old = .error e) : e = .valueError := by
  unfold readVisitDate at h
  rcases v with _ | (_ | s)
  · exact absurd h (by simp)
  · exact absurd h (by simp)
  · by_cases hs : s = "" <;> simp [hs] at h
    rcases hp : fromisoformat s with _ | dt <;> rw [hp] at h <;> simp at h
    exact h.symm

/-- A falsy `visit_date` (absent, `null`, or `""`) leaves the old value. -/
theorem readVisitDate_falsy {v : Option (Option String)} (old : Option Ymd)
    (h : v = none ∨ v = some none ∨ v = some (some "")) :
    readVisitDate v old = .ok old := by
  rcases h with h | h | h <;> subst h <;> simp [readVisitDate]

/-- `round(x, 2)` at an integer value is the identity. -/
theorem round2_intCast (k : Int) : round2 ((k : Int) : Rat) = (k : Rat) := by
  have h : ((k : Rat) * 100) = ((k * 100 : Int) : Rat) := by push_cast; ring
  simp only [round2, floorQ, h, Rat.num_intCast, Rat.den_intCast]
  norm_num

/-! ## Claim C1 -/

/-- Claim C1, as stated, is false on the code: a create body lacking
`restaurant_name` makes `data['restaurant_name']` raise an uncaught
`KeyError`, which Flask answers with HTTP 500, not with a 400
BadRequest.  (The second half of the claim — nothing is persisted —
does hold.) -/
theorem c1_counterexample :
    (create_dimsum bodyHarGow 0 []).status = 500 ∧
    ¬(create_dimsum bodyHarGow 0 []).status = 400 ∧
    (create_dimsum bodyHarGow 0 []).store = [] := by
  decide

/-- Claim C1 (corrected): a create request lacking `restaurant_name` or
`dish_name` fails — with a generic server error (HTTP 500, the uncaught
`KeyError`, or the `ValueError` if a bad `visit_date` is hit first) —
and no record is persisted: the record set is unchanged. -/
theorem c1_theorem (d : ReqData) (now : Nat) (st : Store)
    (h : d.restaurant_name = none ∨ d.dish_name = none) :
    (create_dimsum d now st).status = 500 ∧
    (create_dimsum d now st).body = none ∧
    (create_dimsum d now st).store = st := by
  unfold create_dimsum createE
  rcases hv : readVisitDate d.visit_date none with e | vd
  · rw [readVisitDate_error hv]
    simp [statusOf]
  · rcases h with h | h
    · rw [h]
      simp [statusOf]
    · rcases hr : d.restaurant_name with _ | rn?
      · simp [statusOf]
      · rw [h]
        simp [statusOf]

/-- Witness for C1 at a concrete input. -/
theorem c1_witness :
    (create_dimsum bodyHarGow 3 [sampleA]).status = 500 ∧
    (create_dimsum bodyHarGow 3 [sampleA]).body = none ∧
    (create_dimsum bodyHarGow 3 [sampleA]).store = [sampleA] :=
  c1_theorem bodyHarGow 3 [sampleA] (Or.inl rfl)

/-! ## Claim C2 -/

/-- Claim C2, as stated, is false on the code: a create request whose
`dish_name` is the empty string is accepted (HTTP 201) and the record —
with an empty `dish_name` — is persisted.  Nothing in `create_dimsum`
or in the schema (`nullable=False` only rejects NULL) checks for
non-emptiness. -/
theorem c2_counterexample :
    (create_dimsum bodyEmptyDish 0 []).status = 201 ∧
    ((create_dimsum bodyEmptyDish 0 []).store.map (fun r => r.dish_name)) = [""] := by
  decide

/-- Claim C2 (corrected): non-emptiness is not enforced.  When
`restaurant_name` and `dish_name` are present as strings — empty or not
— and `visit_date` does not raise, creation succeeds and persists the
strings verbatim; only a `null` in one of the two required columns is
rejected (by the NOT NULL constraint at commit, surfacing as a generic
HTTP 500 with nothing persisted). -/
theorem c2_theorem :
    (∀ (d : ReqData) (now : Nat) (st : Store) (rn dn : String) (vd : Option Ymd),
      d.restaurant_name = some (some rn) → d.dish_name = some (some dn) →
      readVisitDate d.visit_date none = .ok vd →
      ∃ r : DimSum, create_dimsum d now st = ⟨201, some r, st ++ [r]⟩ ∧
        r.restaurant_name = rn ∧ r.dish_name = dn) ∧
    (∀ (d : ReqData) (now : Nat) (st : Store),
      d.restaurant_name = some none ∨ d.dish_name = some none →
      (create_dimsum d now st).status = 500 ∧ (create_dimsum d now st).store = st) := by
  constructor
  · intro d now st rn dn vd hr hd hv
    unfold create_dimsum createE
    rw [hv, hr, hd]
    exact ⟨_, rfl, rfl, rfl⟩
  · intro d now st h
    unfold create_dimsum createE
    rcases hv : readVisitDate d.visit_date none with e | vd
    · rw [readVisitDate_error hv]
      simp [statusOf]
    · rcases h with h | h
      · rw [h]
        rcases hd : d.dish_name with _ | dn? <;> simp [statusOf]
      · rw [h]
        rcases hr : d.restaurant_name with _ | (_ | rn) <;> simp [statusOf]

/-- Witness for C2 at a concrete input: the empty `dish_name` really is
persisted. -/
theorem c2_witness :
    ∃ r : DimSum, create_dimsum bodyEmptyDish 0 [] = ⟨201, some r, [] ++ [r]⟩ ∧
      r.restaurant_name = "Golden Dragon" ∧ r.dish_name = "" :=
  c2_theorem.1 bodyEmptyDish 0 [] "Golden Dragon" "" none rfl rfl rfl

/-! ## Claim C3 -/

/-- Claim C3, as stated, is false on the code in two ways, both shown on
concrete inputs: (1) an unparsable `visit_date` string makes
`datetime.fromisoformat` raise an uncaught `ValueError`, answered with
HTTP 500, not 400; (2) the empty string — not a parsable ISO-8601 date —
does not make the operation fail at all: the truthiness guard
`if data.get('visit_date'):` skips it and the update succeeds. -/
theorem c3_counterexample :
    ((create_dimsum bodyBadDate 0 []).status = 500 ∧
      ¬(create_dimsum bodyBadDate 0 []).status = 400) ∧
    (update_dimsum 1 bodyEmptyDate [sampleA]).status = 200 := by
  decide

/-- Claim C3 (corrected): a `visit_date` that is a non-empty unparsable
string makes create/update fail with a generic server error (HTTP 500,
the uncaught `ValueError`) and leaves the record set unchanged; the
empty string is silently ignored (the stored value is left as it was);
a well-formed ISO-8601 date string is parsed and stored date-only (any
time component is dropped), also end-to-end through create. -/
theorem c3_theorem :
    (∀ (d : ReqData) (now : Nat) (st : Store) (s : String),
      d.visit_date = some (some s) → s ≠ "" → fromisoformat s = none →
      (create_dimsum d now st).status = 500 ∧ (create_dimsum d now st).store = st) ∧
    (∀ (i : Nat) (d : ReqData) (st : Store) (s : String) (item : DimSum),
      st.find? (fun r => r.id == i) = some item →
      d.visit_date = some (some s) → s ≠ "" → fromisoformat s = none →
      (update_dimsum i d st).status = 500 ∧ (update_dimsum i d st).store = st) ∧
    (∀ (old : Option Ymd), readVisitDate (some (some "")) old = .ok old) ∧
    (∀ (s : String) (ymd : Ymd) (t : Nat × Nat × Nat) (old : Option Ymd),
      fromisoformat s = some (ymd, t) →
      readVisitDate (some (some s)) old = .ok (some ymd)) ∧
    (∀ (d : ReqData) (now : Nat) (st : Store) (s : String) (ymd : Ymd)
        (t : Nat × Nat × Nat) (rn dn : String),
      d.visit_date = some (some s) → fromisoformat s = some (ymd, t) →
      d.restaurant_name = some (some rn) → d.dish_name = some (some dn) →
      ∃ r : DimSum, create_dimsum d now st = ⟨201, some r, st ++ [r]⟩ ∧
        r.visit_date = some ymd) := by
  have hempty : ∀ s : String, fromisoformat s ≠ none → s ≠ "" := by
    intro s h he
    subst he
    exact h rfl
  have hbad : ∀ (v : Option (Option String)) (old : Option Ymd) (s : String),
      v = some (some s) → s ≠ "" → fromisoformat s = none →
      readVisitDate v old = .error .valueError := by
    intro v old s hv hs hp
    subst hv
    simp [readVisitDate, hs, hp]
  have hgood : ∀ (s : String) (ymd : Ymd) (t : Nat × Nat × Nat) (old : Option Ymd),
      fromisoformat s = some (ymd, t) →
      readVisitDate (some (some s)) old = .ok (some ymd) := by
    intro s ymd t old hp
    have hs : s ≠ "" := hempty s (by rw [hp]; simp)
    simp [readVisitDate, hs, hp]
  refine ⟨?_, ?_, ?_, hgood, ?_⟩
  · intro d now st s hv hs hp
    unfold create_dimsum createE
    rw [hbad d.visit_date none s hv hs hp]
    simp [statusOf]
  · intro i d st s item hf hv hs hp
    unfold update_dimsum updateE
    rw [hf]
    simp only [hbad d.visit_date item.visit_date s hv hs hp, statusOf]
    exact ⟨trivial, trivial⟩
  · intro old
    simp [readVisitDate]
  · intro d now st s ymd t rn dn hv hp hr hd
    unfold create_dimsum createE
    rw [hv, hgood s ymd t none hp, hr, hd]
    exact ⟨_, rfl, rfl⟩

/-- Witness for C3 at concrete inputs: the bad-date create, the ignored
empty string, and a stored date-only parse of `2024-01-15T10:30:00`. -/
theorem c3_witness :
    ((create_dimsum bodyBadDate 7 [sampleA]).status = 500 ∧
      (create_dimsum bodyBadDate 7 [sampleA]).store = [sampleA]) ∧
    readVisitDate (some (some "")) (some ⟨2024, 1, 15⟩) = .ok (some ⟨2024, 1, 15⟩) ∧
    readVisitDate (some (some "2024-01-15T10:30:00")) none = .ok (some ⟨2024, 1, 15⟩) := by
  refine ⟨c3_theorem.1 bodyBadDate 7 [sampleA] "not-a-date" rfl (by decide) (by decide),
    c3_theorem.2.2.1 (some ⟨2024, 1, 15⟩),
    c3_theorem.2.2.2.1 "2024-01-15T10:30:00" ⟨2024, 1, 15⟩ (10, 30, 0) none (by decide)⟩

/-- `data.get(k, item.k)` over a required column yields a string
whenever the input does not carry an explicit `null` for it. -/
theorem dictGet_ne_null {v : Option (Option α)} {x : α} (h : v ≠ some none) :
    ∃ y, dictGet v (some x) = some y := by
  rcases v with _ | (_ | y)
  · exact ⟨x, rfl⟩
  · exact absurd rfl h
  · exact ⟨y, rfl⟩

/-! ## Claim C4 -/

/-- Claim C4, as stated, is false on the code: `visit_date` is a
recognized field, and here it is present in the update input (with value
`null`), yet the stored value is not overwritten — the truthiness guard
skips it — while the claim requires every recognized present field to be
overwritten.  The update succeeds (HTTP 200) and the record still
carries its old `visit_date`. -/
theorem c4_counterexample :
    (update_dimsum 1 bodyNullDate [sampleA]).status = 200 ∧
    ((update_dimsum 1 bodyNullDate [sampleA]).store.map (fun r => r.visit_date)) =
      [some ⟨2024, 1, 15⟩] := by
  decide

/-- Claim C4 (corrected): for an existing record, update overwrites
exactly the recognized fields present in the input — except
`visit_date`, which is only overwritten when present with a truthy
(non-null, non-empty, parsable) value, as summarized by
`readVisitDate` — leaves fields absent from the input at their prior
value, never changes `id` or `created_at`, and leaves every record with
a different id unchanged in place. -/
theorem c4_theorem (i : Nat) (d : ReqData) (st : Store) (item : DimSum)
    (vd : Option Ymd)
    (hf : st.find? (fun r => r.id == i) = some item)
    (hrn : d.restaurant_name ≠ some none) (hdn : d.dish_name ≠ some none)
    (hvd : readVisitDate d.visit_date item.visit_date = .ok vd) :
    ∃ r : DimSum,
      update_dimsum i d st =
        ⟨200, some r, st.map (fun x => if x.id == i then r else x)⟩ ∧
      r.id = item.id ∧ r.created_at = item.created_at ∧
      some r.restaurant_name = dictGet d.restaurant_name (some item.restaurant_name) ∧
      some r.dish_name = dictGet d.dish_name (some item.dish_name) ∧
      r.dish_type = dictGet d.dish_type item.dish_type ∧
      r.rating = dictGet d.rating item.rating ∧
      r.price = dictGet d.price item.price ∧
      r.notes = dictGet d.notes item.notes ∧
      r.location = dictGet d.location item.location ∧
      r.would_order_again = dictGet d.would_order_again item.would_order_again ∧
      r.visit_date = vd ∧
      ∀ x ∈ st, x.id ≠ i → x ∈ (update_dimsum i d st).store := by
  obtain ⟨rn, hrn2⟩ := dictGet_ne_null (x := item.restaurant_name) hrn
  obtain ⟨dn, hdn2⟩ := dictGet_ne_null (x := item.dish_name) hdn
  unfold update_dimsum updateE
  rw [hf]
  simp only [hvd, hrn2, hdn2]
  refine ⟨_, rfl, rfl, rfl, rfl, rfl, rfl, rfl, rfl, rfl, rfl, rfl, rfl, ?_⟩
  intro x hx hne
  simp only [List.mem_map]
  exact ⟨x, hx, by simp [hne]⟩

/-- Witness for C4 at a concrete input: updating only `rating` of record
2 in a two-record store. -/
theorem c4_witness :
    ∃ r : DimSum,
      update_dimsum 2 { rating := some (some 9) } [sampleA, sampleB] =
        ⟨200, some r,
          [sampleA, sampleB].map (fun x => if x.id == 2 then r else x)⟩ ∧
      r.id = sampleB.id ∧ r.created_at = sampleB.created_at ∧
      some r.restaurant_name = dictGet none (some sampleB.restaurant_name) ∧
      some r.dish_name = dictGet none (some sampleB.dish_name) ∧
      r.dish_type = dictGet none sampleB.dish_type ∧
      r.rating = dictGet (some (some 9)) sampleB.rating ∧
      r.price = dictGet none sampleB.price ∧
      r.notes = dictGet none sampleB.notes ∧
      r.location = dictGet none sampleB.location ∧
      r.would_order_again = dictGet none sampleB.would_order_again ∧
      r.visit_date = sampleB.visit_date ∧
      ∀ x ∈ [sampleA, sampleB], x.id ≠ 2 →
        x ∈ (update_dimsum 2 { rating := some (some 9) } [sampleA, sampleB]).store :=
  c4_theorem 2 { rating := some (some 9) } [sampleA, sampleB] sampleB
    sampleB.visit_date (by decide) (by decide) (by decide) rfl

/-! ## Claim C9 -/

/-- Claim C9 (confirmed): update can never clear `visit_date`.  When the
update input's `visit_date` is present but `null` (or the empty string),
the truthiness guard skips the assignment, so after the request every
record in the store still has the `visit_date` of the record that
previously carried its id — whatever else the update did or whether it
failed. -/
theorem c9_theorem (i : Nat) (d : ReqData) (st : Store)
    (hvd : d.visit_date = some none ∨ d.visit_date = some (some "")) :
    ∀ x ∈ (update_dimsum i d st).store, ∃ y ∈ st, x.id = y.id ∧
      x.visit_date = y.visit_date := by
  have hread : ∀ old : Option Ymd, readVisitDate d.visit_date old = .ok old :=
    fun old => readVisitDate_falsy old (Or.inr hvd)
  intro x hx
  unfold update_dimsum updateE at hx
  rcases hf : st.find? (fun r => r.id == i) with _ | item
  · rw [hf] at hx
    exact ⟨x, hx, rfl, rfl⟩
  · rw [hf] at hx
    simp only [hread item.visit_date] at hx
    rcases hrn : dictGet d.restaurant_name (some item.restaurant_name) with _ | rn
    · rw [hrn] at hx
      exact ⟨x, hx, rfl, rfl⟩
    · rw [hrn] at hx
      rcases hdn : dictGet d.dish_name (some item.dish_name) with _ | dn
      · rw [hdn] at hx
        exact ⟨x, hx, rfl, rfl⟩
      · rw [hdn] at hx
        simp only [List.mem_map] at hx
        obtain ⟨y, hy, hxy⟩ := hx
        by_cases hid : (y.id == i) = true
        · rw [if_pos hid] at hxy
          refine ⟨item, List.mem_of_find?_eq_some hf, ?_, ?_⟩
          · rw [← hxy]
          · rw [← hxy]
        · rw [if_neg hid] at hxy
          exact ⟨y, hy, by rw [← hxy], by rw [← hxy]⟩

/-- Witness for C9 at a concrete input: after an update of record 1 with
`visit_date: null`, the (unchanged) record still carries its date. -/
theorem c9_witness :
    ∃ y ∈ [sampleA], sampleA.id = y.id ∧ sampleA.visit_date = y.visit_date :=
  c9_theorem 1 bodyNullDate [sampleA] (Or.inl rfl) sampleA (by decide)

/-! ## Claim C10 -/

/-- Claim C10 (confirmed): for a field other than `visit_date`
(`dish_type`, `rating`, `price`, `notes`, `location`,
`would_order_again`), an update input carrying an explicit `null`
overwrites the stored value with `null` — `data.get(k, item.k)` returns
the present `None`, not the default — and a record whose
`would_order_again` is `null` is counted in neither `winners` nor
`losers` by `get_stats` (the SQL equality filters match only `true`
resp. `false`). -/
theorem c10_theorem :
    (∀ (i : Nat) (d : ReqData) (st : Store) (r : DimSum) (st2 : Store),
      updateE i d st = .ok (r, st2) →
      (d.dish_type = some none → r.dish_type = none) ∧
      (d.rating = some none → r.rating = none) ∧
      (d.price = some none → r.price = none) ∧
      (d.notes = some none → r.notes = none) ∧
      (d.location = some none → r.location = none) ∧
      (d.would_order_again = some none → r.would_order_again = none)) ∧
    (∀ (x : DimSum) (st : Store), x.would_order_again = none →
      (get_stats (x :: st)).winners = (get_stats st).winners ∧
      (get_stats (x :: st)).losers = (get_stats st).losers) := by
  constructor
  · intro i d st r st2 h
    unfold updateE at h
    rcases hf : st.find? (fun x => x.id == i) with _ | item <;> rw [hf] at h
    · exact absurd h (by simp)
    · rcases hv : readVisitDate d.visit_date item.visit_date with e | vd
      · simp only [hv] at h
        exact absurd h (by simp)
      · simp only [hv] at h
        rcases hrn : dictGet d.restaurant_name (some item.restaurant_name) with _ | rn
        · rw [hrn] at h
          exact absurd h (by simp)
        · rw [hrn] at h
          rcases hdn : dictGet d.dish_name (some item.dish_name) with _ | dn
          · rw [hdn] at h
            exact absurd h (by simp)
          · rw [hdn] at h
            simp only [Except.ok.injEq, Prod.mk.injEq] at h
            obtain ⟨hr, _⟩ := h
            subst hr
            refine ⟨fun hd => ?_, fun hd => ?_, fun hd => ?_, fun hd => ?_,
              fun hd => ?_, fun hd => ?_⟩ <;> simp [hd, dictGet]
  · intro x st hx
    constructor <;> simp [get_stats, List.filter_cons, hx]

/-- Witness for C10 at concrete inputs: an explicit `null` for `rating`
really clears it, and a null `would_order_again` counts in neither
bucket. -/
theorem c10_witness :
    (({ visit_date := some none, rating := some none } : ReqData).rating = some none →
      ({ sampleA with rating := none } : DimSum).rating = none) ∧
    (get_stats [{ sampleA with would_order_again := none }]).winners =
      (get_stats []).winners := by
  constructor
  · intro h
    exact ((c10_theorem.1 1 { visit_date := some none, rating := some none }
      [sampleA] { sampleA with rating := none }
      [{ sampleA with rating := none }] rfl).2.1 h)
  · exact (c10_theorem.2 { sampleA with would_order_again := none } [] rfl).1

/-- Every id in the table is bounded by the current maximum. -/
theorem le_maxId : ∀ {st : Store} {x : DimSum}, x ∈ st → x.id ≤ maxId st := by
  intro st
  induction st with
  | nil => intro x hx; cases hx
  | cons y t ih =>
    intro x hx
    rcases List.mem_cons.mp hx with h | h
    · subst h
      exact Nat.le_max_left _ _
    · exact Nat.le_trans (ih h) (Nat.le_max_right _ _)

/-! ## Claim C8 -/

/-- Claim C8, as stated, is false on the code: the id column is an
SQLite `INTEGER PRIMARY KEY` without `AUTOINCREMENT`, so a new row gets
one more than the largest id *currently* in the table.  In the concrete
history below, ids 1 and 2 are assigned, record 2 is deleted, and the
next create is assigned id 2 again — an id that was previously assigned
(to a since-deleted record), contradicting "strictly greater than every
id ever previously assigned". -/
theorem c8_counterexample :
    ((run [.create bodyAB 0, .create bodyAB 1]).map (fun r => r.id)) = [1, 2] ∧
    ((run [.create bodyAB 0, .create bodyAB 1, .del 2]).map (fun r => r.id)) = [1] ∧
    ((run [.create bodyAB 0, .create bodyAB 1, .del 2,
        .create bodyAB 2]).map (fun r => r.id)) = [1, 2] := by
  decide

/-- Claim C8 (corrected): each newly created record receives an id
distinct from, and strictly greater than, every id *currently in the
table* (one more than the maximum), and an assigned id is never changed
afterwards (update preserves the ids of all rows); but the id of a
since-deleted record can be reassigned. -/
theorem c8_theorem :
    (∀ (st : Store) (x : DimSum), x ∈ st → x.id < nextId st) ∧
    (∀ (d : ReqData) (now : Nat) (st : Store) (r : DimSum) (st2 : Store),
      createE d now st = .ok (r, st2) →
      r.id = nextId st ∧ st2 = st ++ [r]) ∧
    (∀ (i : Nat) (d : ReqData) (st : Store) (r : DimSum) (st2 : Store),
      updateE i d st = .ok (r, st2) →
      st2.map (fun x => x.id) = st.map (fun x => x.id)) := by
  refine ⟨?_, ?_, ?_⟩
  · intro st x hx
    exact Nat.lt_succ_of_le (le_maxId hx)
  · intro d now st r st2 h
    unfold createE at h
    rcases hv : readVisitDate d.visit_date none with e | vd <;> rw [hv] at h
    · exact absurd h (by simp)
    · rcases hr : d.restaurant_name with _ | rn? <;> rw [hr] at h
      · exact absurd h (by simp)
      · rcases hd : d.dish_name with _ | dn? <;> rw [hd] at h
        · exact absurd h (by simp)
        · rcases rn? with _ | rn
          · exact absurd h (by simp)
          · rcases dn? with _ | dn
            · exact absurd h (by simp)
            · simp only [Except.ok.injEq, Prod.mk.injEq] at h
              obtain ⟨hr2, hs2⟩ := h
              subst hr2
              exact ⟨rfl, hs2.symm⟩
  · intro i d st r st2 h
    unfold updateE at h
    rcases hf : st.find? (fun x => x.id == i) with _ | item <;> rw [hf] at h
    · exact absurd h (by simp)
    · have hid : item.id = i := by
        have := List.find?_some hf
        simpa using this
      rcases hv : readVisitDate d.visit_date item.visit_date with e | vd
      · simp only [hv] at h
        exact absurd h (by simp)
      · simp only [hv] at h
        rcases hrn : dictGet d.restaurant_name (some item.restaurant_name) with _ | rn
        · rw [hrn] at h
          exact absurd h (by simp)
        · rw [hrn] at h
          rcases hdn : dictGet d.dish_name (some item.dish_name) with _ | dn
          · rw [hdn] at h
            exact absurd h (by simp)
          · rw [hdn] at h
            simp only [Except.ok.injEq, Prod.mk.injEq] at h
            obtain ⟨hr2, hs2⟩ := h
            subst hs2
            rw [List.map_map]
            refine List.map_congr_left ?_
            intro x hx
            have hxid : ∀ x : DimSum, (x.id == i) = true → x.id = i := by
              intro x hx2
              simpa using hx2
            by_cases hxi : (x.id == i) = true
            · simp only [Function.comp, hxi, if_pos]
              rw [hid, hxid x hxi]
            · simp only [Function.comp, hxi, if_neg]
              simp

/-- Witness for C8 at concrete inputs: creating into a two-record table
assigns id 3 = max + 1, and an update keeps all ids. -/
theorem c8_witness :
    sampleA.id < nextId [sampleA, sampleB] ∧
    ({ sampleA with
        id := 3
        created_at := 9
        dish_type := none
        rating := some 0
        visit_date := none
        would_order_again := some true
        restaurant_name := "A"
        dish_name := "B" } : DimSum).id =
      nextId [sampleA, sampleB] ∧
    (∃ r : DimSum, ∃ st2 : Store,
      updateE 2 { rating := some (some 9) } [sampleA, sampleB] = .ok (r, st2) ∧
      st2.map (fun x => x.id) = [sampleA, sampleB].map (fun x => x.id)) := by
  refine ⟨c8_theorem.1 [sampleA, sampleB] sampleA (by decide), ?_, ?_⟩
  · exact (c8_theorem.2.1 bodyAB 9 [sampleA, sampleB] _ _ rfl).1
  · exact ⟨_, _, rfl,
      c8_theorem.2.2 2 { rating := some (some 9) } [sampleA, sampleB] _ _ rfl⟩

/-! ## Claim C6 -/

/-- Claim C6 (confirmed): for every record set and every search value
(the empty string means "no filter"), `get_dimsum` returns a sequence
that is ordered by `created_at` descending — each record's `created_at`
is at least the next one's — and is a permutation of exactly the
matching records, whatever the insertion or id order of the table. -/
theorem c6_theorem (search : String) (st : Store) :
    List.Sorted newestFirst (get_dimsum search st) ∧
    List.Perm (get_dimsum search st)
      (if search = "" then st else st.filter (matchesSearch search)) := by
  unfold get_dimsum sortByNewest
  by_cases h : search = ""
  · rw [if_pos h, if_pos h]
    exact ⟨List.sorted_insertionSort newestFirst st, List.perm_insertionSort _ _⟩
  · rw [if_neg h, if_neg h]
    exact ⟨List.sorted_insertionSort newestFirst _, List.perm_insertionSort _ _⟩

/-! ## Claim C7 -/

/-- `AVG` over the three sample ratings is exactly 4. -/
theorem avg_sample : avgOr0 ([sampleA, sampleB, sampleC].filterMap
    (fun r => r.rating.map (fun n => (n : Rat)))) = ((4 : Int) : Rat) := by
  have h : [sampleA, sampleB, sampleC].filterMap
      (fun r => r.rating.map (fun n => (n : Rat))) =
      [((3 : Int) : Rat), ((4 : Int) : Rat), ((5 : Int) : Rat)] := rfl
  rw [h]
  simp only [avgOr0, List.length_cons, List.length_nil, List.sum_cons, List.sum_nil]
  norm_num

/-- Every group `get_stats` lists for `dish_types` carries a non-null,
non-empty key and counts exactly the rows with that `dish_type`. -/
theorem breakdown_sound (keys : List (Option String)) (p : String × Nat)
    (hp : p ∈ breakdown keys) :
    p.fst ≠ "" ∧ p.snd = (keys.filter (fun x => x == some p.fst)).length := by
  unfold breakdown keyCounts at hp
  obtain ⟨q, hq, hmatch⟩ := List.mem_filterMap.mp hp
  obtain ⟨k, hk, hqk⟩ := List.mem_map.mp hq
  subst hqk
  rcases k with _ | n
  · simp at hmatch
  · by_cases hn : n = ""
    · simp [hn] at hmatch
    · simp only [hn, if_neg, ite_false, Option.some.injEq] at hmatch
      subst hmatch
      exact ⟨hn, rfl⟩

/-- Claim C7 (confirmed): on the three concrete records with ratings
{3,4,5}, two winners and one loser, `get_stats` reports
`total_items = 3`, `average_rating = 4`, `winners = 2`, `losers = 1`,
and a `restaurants` breakdown whose counts sum to 3.  In general
`total_items` counts all rows while the `dish_types` breakdown only
lists non-null (and non-empty) keys, each counting exactly its own
rows — so a null-keyed row is excluded from the grouping yet still
counted in the total — and on an empty record set both averages are
0. -/
theorem c7_theorem :
    ((get_stats [sampleA, sampleB, sampleC]).total_items = 3 ∧
      (get_stats [sampleA, sampleB, sampleC]).average_rating = 4 ∧
      (get_stats [sampleA, sampleB, sampleC]).winners = 2 ∧
      (get_stats [sampleA, sampleB, sampleC]).losers = 1 ∧
      (((get_stats [sampleA, sampleB, sampleC]).restaurants.map
        (fun p => p.snd)).sum = 3)) ∧
    (∀ st : Store, (get_stats st).total_items = st.length ∧
      ∀ p ∈ (get_stats st).dish_types, p.fst ≠ "" ∧
        p.snd = (st.filter (fun r => r.dish_type == some p.fst)).length) ∧
    ((get_stats []).average_rating = 0 ∧ (get_stats []).average_price = 0) := by
  have hzero : round2 (avgOr0 ([] : List Rat)) = 0 := by
    have h0 : avgOr0 ([] : List Rat) = ((0 : Int) : Rat) := by norm_num [avgOr0]
    rw [h0, round2_intCast]
    norm_num
  refine ⟨⟨rfl, ?_, by decide, by decide, by decide⟩, ?_, ?_, ?_⟩
  · show round2 (avgOr0 _) = 4
    rw [avg_sample, round2_intCast]
    norm_num
  · intro st
    refine ⟨rfl, ?_⟩
    intro p hp
    have hp2 : p ∈ breakdown (st.map (fun r => r.dish_type)) := hp
    have hb := breakdown_sound (st.map (fun r => r.dish_type)) p hp2
    refine ⟨hb.1, ?_⟩
    rw [hb.2, List.filter_map, List.length_map]
    rfl
  · exact hzero
  · exact hzero

/-- Witness for C7 at a concrete input: a store with a null-`dish_type`
row and two "Shrimp" rows; the breakdown lists only the non-null key,
counting its two rows, while `total_items` counts all three. -/
theorem c7_witness :
    (get_stats [{ sampleA with dish_type := none }, sampleB, sampleC]).total_items =
      ([{ sampleA with dish_type := none }, sampleB, sampleC] : Store).length ∧
    ("Shrimp", 2).fst ≠ "" ∧
    ("Shrimp", 2).snd =
      (([{ sampleA with dish_type := none }, sampleB, sampleC] : Store).filter
        (fun r => r.dish_type == some ("Shrimp", 2).fst)).length := by
  have h := (c7_theorem.2.1
    [{ sampleA with dish_type := none }, sampleB, sampleC])
  exact ⟨h.1, h.2 ("Shrimp", 2) (by decide)⟩


/-! ## Claim C5 -/

/-- The empty pattern matches exactly the empty text. -/
theorem likeMatch_nil (t : List Char) : likeMatch [] t = true ↔ t = [] := by
  cases t <;> simp [likeMatch]

/-- A leading `%` consumes an arbitrary prefix of the text. -/
theorem likeMatch_pct (p : List Char) (t : List Char) :
    likeMatch ('%' :: p) t = true ↔
      ∃ t1 t2, t = t1 ++ t2 ∧ likeMatch p t2 = true := by
  have h : likeMatch ('%' :: p) t = t.tails.any (fun t2 => likeMatch p t2) := by
    rw [likeMatch.eq_def]
    simp
  rw [h, List.any_eq_true]
  constructor
  · rintro ⟨x, hx, h2⟩
    obtain ⟨pre, hpre⟩ := (List.mem_tails _ _).mp hx
    exact ⟨pre, x, hpre.symm, h2⟩
  · rintro ⟨t1, t2, rfl, h2⟩
    exact ⟨t2, (List.mem_tails _ _).mpr ⟨t1, rfl⟩, h2⟩

/-- `pfx` is prefix decomposition. -/
theorem pfx_iff (s : List Char) : ∀ t, pfx s t = true ↔ ∃ u, t = s ++ u := by
  induction s with
  | nil => intro t; simp [pfx]
  | cons c s2 ih =>
    intro t
    cases t with
    | nil => simp [pfx]
    | cons a t2 =>
      simp only [pfx, Bool.and_eq_true, beq_iff_eq, ih]
      constructor
      · rintro ⟨rfl, u, rfl⟩
        exact ⟨u, rfl⟩
      · rintro ⟨u, hu⟩
        rw [List.cons_append] at hu
        injection hu with h1 h2
        exact ⟨h1.symm, u, h2⟩

/-- `hasSub` is substring decomposition. -/
theorem hasSub_iff (s : List Char) : ∀ t, hasSub s t = true ↔
    ∃ t1 t2, t = t1 ++ s ++ t2 := by
  intro t
  induction t with
  | nil =>
    simp only [hasSub, pfx_iff]
    constructor
    · rintro ⟨u, hu⟩
      rcases List.append_eq_nil.mp hu.symm with ⟨rfl, rfl⟩
      exact ⟨[], [], rfl⟩
    · rintro ⟨t1, t3, h⟩
      rcases List.append_eq_nil.mp h.symm with ⟨h1, rfl⟩
      rcases List.append_eq_nil.mp h1 with ⟨rfl, rfl⟩
      exact ⟨[], rfl⟩
  | cons a t2 ih =>
    simp only [hasSub, Bool.or_eq_true, pfx_iff, ih]
    constructor
    · rintro (⟨u, hu⟩ | ⟨u1, u2, hu⟩)
      · exact ⟨[], u, by simpa using hu⟩
      · exact ⟨a :: u1, u2, by simp [hu]⟩
    · rintro ⟨t1, t3, h⟩
      cases t1 with
      | nil => exact Or.inl ⟨t3, by simpa using h⟩
      | cons b t1x =>
        rw [List.cons_append, List.cons_append] at h
        injection h with h1 h2
        exact Or.inr ⟨t1x, t3, by simpa using h2⟩

/-- A wildcard-free pattern followed by `%` matches exactly the texts
starting with a case-insensitive copy of the pattern. -/
theorem likeMatch_lit : ∀ (s : List Char), (∀ c ∈ s, c ≠ '%' ∧ c ≠ '_') →
    ∀ t, likeMatch (s ++ ['%']) t = true ↔
      ∃ t1 t2, t = t1 ++ t2 ∧ t1.map Char.toLower = s.map Char.toLower := by
  intro s
  induction s with
  | nil =>
    intro _ t
    rw [List.nil_append, likeMatch_pct]
    constructor
    · intro _
      exact ⟨[], t, rfl, rfl⟩
    · intro _
      exact ⟨t, [], by simp, by simp [likeMatch]⟩
  | cons c s2 ih =>
    intro hs t
    have hc := hs c (List.mem_cons_self c s2)
    have hs2 : ∀ x ∈ s2, x ≠ '%' ∧ x ≠ '_' :=
      fun x hx => hs x (List.mem_cons_of_mem _ hx)
    cases t with
    | nil =>
      rw [List.cons_append, likeMatch.eq_def]
      simp only [if_neg hc.1, if_neg hc.2]
      constructor
      · intro h
        exact absurd h (by simp)
      · rintro ⟨t1, t2, he, hmap⟩
        rcases List.append_eq_nil.mp he.symm with ⟨rfl, rfl⟩
        simp at hmap
    | cons a t3 =>
      rw [List.cons_append, likeMatch.eq_def]
      simp only [if_neg hc.1, if_neg hc.2, Bool.and_eq_true, beq_iff_eq, ih hs2 t3]
      constructor
      · rintro ⟨hca, u1, u2, rfl, hmap⟩
        refine ⟨a :: u1, u2, rfl, ?_⟩
        simp only [List.map_cons, hmap, List.cons.injEq]
        exact ⟨hca.symm, trivial⟩
      · rintro ⟨t1, t2, he, hmap⟩
        cases t1 with
        | nil => simp at hmap
        | cons b t1x =>
          rw [List.cons_append] at he
          injection he with h1 h2
          subst h1
          simp only [List.map_cons, List.cons.injEq] at hmap
          exact ⟨hmap.1.symm, t1x, t2, h2, hmap.2⟩

/-- For a wildcard-free search, the `LIKE '%s%'` test is exactly
case-folded substring containment. -/
theorem likeMatch_sub (s : List Char) (hs : ∀ c ∈ s, c ≠ '%' ∧ c ≠ '_')
    (t : List Char) :
    likeMatch ('%' :: (s ++ ['%'])) t = true ↔
      hasSub (s.map Char.toLower) (t.map Char.toLower) = true := by
  rw [likeMatch_pct, hasSub_iff]
  constructor
  · rintro ⟨t1, t2, rfl, h⟩
    obtain ⟨u1, u2, rfl, hmap⟩ := (likeMatch_lit s hs t2).mp h
    refine ⟨t1.map Char.toLower, u2.map Char.toLower, ?_⟩
    simp [hmap]
  · rintro ⟨p, q, hpq⟩
    obtain ⟨l1, l2, rfl, hl1, hq⟩ := List.map_eq_append_iff.mp hpq
    obtain ⟨m1, m2, rfl, hm1p, hm2⟩ := List.map_eq_append_iff.mp hl1
    refine ⟨m1, m2 ++ l2, by simp, ?_⟩
    exact (likeMatch_lit s hs _).mpr ⟨m2, l2, rfl, hm2⟩

/-- String-level form: `ILIKE '%search%'` for a wildcard-free search is
the spec's raw case-insensitive substring containment. -/
theorem likeMatch_ilike (s f : String) (hs : ∀ c ∈ s.data, c ≠ '%' ∧ c ≠ '_') :
    likeMatch (ilikePat s) f.data = true ↔ containsCI f s = true := by
  have h : ilikePat s = '%' :: (s.data ++ ['%']) := rfl
  rw [h, likeMatch_sub s.data hs f.data]
  exact Iff.rfl

/-- Claim C5, as stated, is false on the code: the search string is
interpolated unescaped into the `LIKE` pattern, so `%` and `_` in it act
as wildcards.  Concretely, `list(search="x_y")` returns the record whose
`restaurant_name` is "xzy", although none of its three fields contains
"x_y" as a raw case-insensitive substring (`dish_type` is even null). -/
theorem c5_counterexample :
    get_dimsum "x_y" [sampleX] = [sampleX] ∧
    containsCI sampleX.restaurant_name "x_y" = false ∧
    containsCI sampleX.dish_name "x_y" = false ∧
    sampleX.dish_type = none := by
  decide

/-- Claim C5 (corrected): for a non-empty search string containing
neither `%` nor `_`, `list(search=s)` returns exactly those reviews
whose `restaurant_name`, `dish_name`, or `dish_type` contains `s` as a
case-insensitive raw substring (OR across the three fields, a null
`dish_type` never matching), with no tokenization or ranking; a search
string containing `%` or `_` instead has those characters act as SQL
LIKE wildcards. -/
theorem c5_theorem (s : String) (st : Store)
    (hs : ∀ c ∈ s.data, c ≠ '%' ∧ c ≠ '_') (hne : s ≠ "") (r : DimSum) :
    r ∈ get_dimsum s st ↔
      r ∈ st ∧ (containsCI r.restaurant_name s = true ∨
        containsCI r.dish_name s = true ∨
        ∃ t, r.dish_type = some t ∧ containsCI t s = true) := by
  unfold get_dimsum sortByNewest
  rw [if_neg hne]
  rw [List.mem_insertionSort, List.mem_filter]
  refine and_congr_right fun _ => ?_
  unfold matchesSearch
  simp only [Bool.or_eq_true, or_assoc]
  rw [likeMatch_ilike s r.restaurant_name hs, likeMatch_ilike s r.dish_name hs]
  refine or_congr Iff.rfl (or_congr Iff.rfl ?_)
  cases hd : r.dish_type with
  | none => simp
  | some t => simp [likeMatch_ilike s t hs]

/-- Witness for C5 at a concrete input: "dragon" (wildcard-free) finds
the "Golden Dragon" record. -/
theorem c5_witness : sampleA ∈ get_dimsum "dragon" [sampleA, sampleX] := by
  have h := c5_theorem "dragon" [sampleA, sampleX] (by decide) (by decide) sampleA
  exact h.mpr (by decide)
